import Mathlib

/-!
ELL: interface layer, map-compiler variable registry and sigmoid activation.

A shallow embedding of

* `libraries/predictors/neural/tcc/SigmoidActivation.tcc` (`SigmoidActivation::Apply`),
* `interfaces/common/tcc/ModelInterface.tcc` (`Map` and `CompiledMap` members),
* the port-to-variable scope stack declared in `libraries/model/include/MapCompiler.h`,

together with the properties proved about them.
-/

set_option autoImplicit false

/-! ## SigmoidActivation -/

namespace ell.predictors.neural

/-- `SigmoidActivation<ElementType>::Apply(input, index)`.  The arithmetic is that of an
ordered field `ElementType`; `exp` stands for `std::exp`.  The `static_cast`s between `double`
and `ElementType` are the identity in this model, and the index parameter is unnamed in the
source (`/*index*/`). -/
def SigmoidActivation.Apply {ElementType Index : Type} [LinearOrderedField ElementType]
    (exp : ElementType → ElementType) (input : ElementType) (_index : Index) : ElementType :=
  if input >= 0 then
    let exp_value := exp (-input)
    1 / (1 + exp_value)
  else
    let exp_value := exp input
    exp_value / (1 + exp_value)

/-- The intermediate quantities of one run of `Apply`: the argument handed to `std::exp`,
the local `exp_value`, the divisor `1.0 + exp_value` and the returned `output`. -/
structure SigmoidActivation.Trace (ElementType : Type) where
  expArgument : ElementType
  exp_value : ElementType
  divisor : ElementType
  output : ElementType

/-- `Apply` instrumented to expose its intermediate quantities; same branches, same
expressions as `SigmoidActivation.Apply`. -/
def SigmoidActivation.ApplyTraced {ElementType Index : Type} [LinearOrderedField ElementType]
    (exp : ElementType → ElementType) (input : ElementType) (_index : Index) :
    SigmoidActivation.Trace ElementType :=
  if input >= 0 then
    let exp_value := exp (-input)
    { expArgument := -input, exp_value := exp_value, divisor := 1 + exp_value,
      output := 1 / (1 + exp_value) }
  else
    let exp_value := exp input
    { expArgument := input, exp_value := exp_value, divisor := 1 + exp_value,
      output := exp_value / (1 + exp_value) }

end ell.predictors.neural

/-! ## Effects shared by the interface layer

Member functions run against collaborators (the wrapped map, the callback forwarder, user
callbacks) whose state is a world `W`.  A call either returns a value or leaves through a
C++ exception; in both cases the world it reached is observable. -/

namespace ell.api

/-- The exceptions that can leave a member function of the interface layer. -/
inductive Exception
  | out_of_range
  | usage_error
  | failure (code : Nat)
deriving DecidableEq, Repr

/-- A computation over the world `W` returning an `R` or throwing. -/
def Action (W R : Type) : Type := W → Except Exception R × W

/-- Return without touching the world. -/
def Action.pure {W R : Type} (r : R) : Action W R := fun w => (Except.ok r, w)

/-- Sequencing: an exception of the first computation skips the second. -/
def Action.bind {W R S : Type} (a : Action W R) (f : R → Action W S) : Action W S := fun w =>
  match a w with
  | (Except.ok r, w1) => f r w1
  | (Except.error e, w1) => (Except.error e, w1)

instance {W : Type} : Monad (Action W) where
  pure := Action.pure
  bind := Action.bind

/-- `ell::api::CallbackBase<ElementType>`: `Run(std::vector<ElementType>&)` returns a `bool` and
may rewrite the vector it was handed, which is returned next to the flag. -/
structure CallbackBase (W Value : Type) where
  Run : List Value → Action W (Bool × List Value)

/-- The member functions of `ell::api::CallbackForwarder<ElementType>` that
`ModelInterface.tcc` calls, with the argument lists of the call sites.  `Buffer` is the raw
`ElementType*` the compiled code passes. -/
structure CallbackForwarder (W Callback LagCallback Buffer : Type) where
  InitializeOnce : Callback → Nat → Callback → Nat → LagCallback → Action W Unit
  Uninitialize : Action W Unit
  InvokeInput : Buffer → Action W Bool
  InvokeOutput : Buffer → Action W Unit

end ell.api

/-! ## ModelInterface.tcc -/

namespace ELL_API

open ell.api

/-- The object behind `_map` as far as `Step` uses it: `Compute<ElementType>(input)`, whose
template argument is passed as a tag and whose result vector is returned. -/
structure MapInterface (W TypeTag TimeTickType Value : Type) where
  Compute : TypeTag → List TimeTickType → Action W (List Value)

/-- A `math::TensorShape` as the interface layer observes it, through `Size()`. -/
structure TensorShape where
  Size : Nat
deriving DecidableEq, Repr

/-- `ELL_API::Map`: the wrapped map. -/
structure Map (W TypeTag TimeTickType Value : Type) where
  _map : MapInterface W TypeTag TimeTickType Value

/-- `ELL_API::CompiledMap`: the wrapped compiled map, its two shapes and, for each element
type, the forwarder returned by `CallbackForwarder<ElementType>()`.  `unusedLagCallback` is the
default-constructed `CallbackBase<TimeTickType>` of `RegisterCallbacks`. -/
structure CompiledMap (W TypeTag TimeTickType Value Callback LagCallback Buffer : Type) where
  _map : MapInterface W TypeTag TimeTickType Value
  _inputShape : TensorShape
  _outputShape : TensorShape
  CallbackForwarder : TypeTag → ell.api.CallbackForwarder W Callback LagCallback Buffer
  unusedLagCallback : LagCallback

section members

variable {W TypeTag TimeTickType Value Callback LagCallback Buffer : Type}

/-- `Map::Step<ElementType>(timestamp)`. -/
def Map.Step (self : Map W TypeTag TimeTickType Value) (ElementType : TypeTag)
    (timestamp : TimeTickType) : Action W Unit := do
  let input := [timestamp]
  let _ ← self._map.Compute ElementType input
  pure ()

/-- `CompiledMap::Step<ElementType>(timestamp)`. -/
def CompiledMap.Step
    (self : CompiledMap W TypeTag TimeTickType Value Callback LagCallback Buffer)
    (ElementType : TypeTag) (timestamp : TimeTickType) : Action W Unit := do
  let input := [timestamp]
  let _ ← self._map.Compute ElementType input
  pure ()

/-- `CompiledMap::RegisterCallbacks<ElementType>(inputCallback, outputCallback)`. -/
def CompiledMap.RegisterCallbacks
    (self : CompiledMap W TypeTag TimeTickType Value Callback LagCallback Buffer)
    (ElementType : TypeTag) (inputCallback outputCallback : Callback) : Action W Unit :=
  let unusedLagCallback := self.unusedLagCallback
  (self.CallbackForwarder ElementType).InitializeOnce inputCallback self._inputShape.Size
    outputCallback self._outputShape.Size unusedLagCallback

/-- `CompiledMap::UnregisterCallbacks<ElementType>()`. -/
def CompiledMap.UnregisterCallbacks
    (self : CompiledMap W TypeTag TimeTickType Value Callback LagCallback Buffer)
    (ElementType : TypeTag) : Action W Unit :=
  CallbackForwarder.Uninitialize (self.CallbackForwarder ElementType)

/-- `CompiledMap::InvokeSourceCallback<ElementType>(input)`. -/
def CompiledMap.InvokeSourceCallback
    (self : CompiledMap W TypeTag TimeTickType Value Callback LagCallback Buffer)
    (ElementType : TypeTag) (input : Buffer) : Action W Bool :=
  (self.CallbackForwarder ElementType).InvokeInput input

/-- `CompiledMap::InvokeSinkCallback<ElementType>(output)`. -/
def CompiledMap.InvokeSinkCallback
    (self : CompiledMap W TypeTag TimeTickType Value Callback LagCallback Buffer)
    (ElementType : TypeTag) (output : Buffer) : Action W Unit :=
  (self.CallbackForwarder ElementType).InvokeOutput output

end members

/-! ### Nodes reached by `Map::SetSourceCallback` and `Map::SetSinkCallback` -/

/-- A node of the model as the interface layer distinguishes them: a
`nodes::SourceNode<ElementType>` with its source function, a `nodes::SinkNode<ElementType>`
with its sink function, or a node of any other type. -/
inductive Node (W TypeTag Value : Type)
  | SourceNode (ElementType : TypeTag)
      (sourceFunction : List Value → Action W (Bool × List Value))
  | SinkNode (ElementType : TypeTag) (sinkFunction : List Value → Action W Unit)
  | Other (id : Nat)

/-- The model returned by `GetModel().GetModel()`: its nodes; a node pointer is the node's
position in this list. -/
abbrev Model (W TypeTag Value : Type) : Type := List (Node W TypeTag Value)

section nodes

variable {W TypeTag Value : Type}

/-- Whether a node is a `SourceNode<ElementType>`. -/
def Node.isSourceNode [DecidableEq TypeTag] (ElementType : TypeTag) :
    Node W TypeTag Value → Bool
  | Node.SourceNode E _ => decide (E = ElementType)
  | _ => false

/-- Whether a node is a `SinkNode<ElementType>`. -/
def Node.isSinkNode [DecidableEq TypeTag] (ElementType : TypeTag) :
    Node W TypeTag Value → Bool
  | Node.SinkNode E _ => decide (E = ElementType)
  | _ => false

/-- Pointers to the nodes satisfying `ofType` among `nodes`, whose first node has pointer
`first`. -/
def Model.nodesOfTypeFrom (ofType : Node W TypeTag Value → Bool) :
    List (Node W TypeTag Value) → Nat → List Nat
  | [], _ => []
  | n :: rest, first =>
    if ofType n then first :: Model.nodesOfTypeFrom ofType rest (first + 1)
    else Model.nodesOfTypeFrom ofType rest (first + 1)

/-- Modelled from the spec: `Model::GetNodesByType<NodeType>()` is not among the sources; it
is taken to return pointers to the model's nodes of the requested type, in model order. -/
def Model.GetNodesByType (ofType : Node W TypeTag Value → Bool)
    (model : Model W TypeTag Value) : List Nat :=
  Model.nodesOfTypeFrom ofType model 0

/-- Modelled from the spec: `SourceNode::SetSourceFunction` is not among the sources; it is
taken to store the function in the source node. -/
def Node.SetSourceFunction (f : List Value → Action W (Bool × List Value)) :
    Node W TypeTag Value → Node W TypeTag Value
  | Node.SourceNode E _ => Node.SourceNode E f
  | n => n

/-- Modelled from the spec: `SinkNode::SetSinkFunction` is not among the sources; it is taken
to store the function in the sink node. -/
def Node.SetSinkFunction (f : List Value → Action W Unit) :
    Node W TypeTag Value → Node W TypeTag Value
  | Node.SinkNode E _ => Node.SinkNode E f
  | n => n

/-- A member call `node->g()` through a node pointer: the pointed-to node is replaced by its
state after the call. -/
def Model.callOn (g : Node W TypeTag Value → Node W TypeTag Value) :
    List (Node W TypeTag Value) → Nat → List (Node W TypeTag Value)
  | [], _ => []
  | n :: rest, 0 => g n :: rest
  | n :: rest, node + 1 => n :: Model.callOn g rest node

/-- The lambda `[&callback](auto& input) { return callback.Run(input); }`. -/
def Map.sourceLambda (callback : CallbackBase W Value) :
    List Value → Action W (Bool × List Value) :=
  fun input => callback.Run input

/-- The lambda `[&callback](const std::vector<ElementType>& output) { callback.Run(...); }`:
the flag returned by `Run` is dropped. -/
def Map.sinkLambda (callback : CallbackBase W Value) : List Value → Action W Unit :=
  fun output => do
    let _ ← callback.Run output
    pure ()

/-- `Map::SetSourceCallback<ElementType>(callback, index)`, acting on the model of the map.
`nodes.at(index)` throws `std::out_of_range` when `index` is not a position of `nodes`. -/
def Map.SetSourceCallback [DecidableEq TypeTag] (ElementType : TypeTag)
    (callback : CallbackBase W Value) (index : Nat) : Action (Model W TypeTag Value) Unit :=
  fun model =>
    let nodes := Model.GetNodesByType (Node.isSourceNode ElementType) model
    match nodes[index]? with
    | none => (Except.error Exception.out_of_range, model)
    | some node =>
      (Except.ok (), Model.callOn (Node.SetSourceFunction (Map.sourceLambda callback)) model node)

/-- `Map::SetSinkCallback<ElementType>(callback, index)`, acting on the model of the map. -/
def Map.SetSinkCallback [DecidableEq TypeTag] (ElementType : TypeTag)
    (callback : CallbackBase W Value) (index : Nat) : Action (Model W TypeTag Value) Unit :=
  fun model =>
    let nodes := Model.GetNodesByType (Node.isSinkNode ElementType) model
    match nodes[index]? with
    | none => (Except.error Exception.out_of_range, model)
    | some node =>
      (Except.ok (), Model.callOn (Node.SetSinkFunction (Map.sinkLambda callback)) model node)

end nodes

/-! ### Recording collaborators

Collaborators whose world is the list of calls they have received so far. -/

/-- One call received by the wrapped map or by a callback forwarder. -/
inductive Call (TypeTag TimeTickType Callback LagCallback Buffer : Type)
  | Compute (ElementType : TypeTag) (input : List TimeTickType)
  | InitializeOnce (ElementType : TypeTag) (sourceCallback : Callback) (inputSize : Nat)
      (sinkCallback : Callback) (outputSize : Nat) (auxiliaryCallback : LagCallback)
  | Uninitialize (ElementType : TypeTag)
  | InvokeInput (ElementType : TypeTag) (buffer : Buffer)
  | InvokeOutput (ElementType : TypeTag) (buffer : Buffer)
deriving DecidableEq, Repr

section recording

variable {TypeTag TimeTickType Value Callback LagCallback Buffer : Type}

/-- A wrapped map that logs every `Compute` and answers with `result`. -/
def Recording.map (result : TypeTag → List TimeTickType → List Value) :
    MapInterface (List (Call TypeTag TimeTickType Callback LagCallback Buffer))
      TypeTag TimeTickType Value where
  Compute := fun E input log => (Except.ok (result E input), log ++ [Call.Compute E input])

/-- The forwarder of element type `E` that logs every call; `InvokeInput` reports
`newData buffer`. -/
def Recording.forwarder (newData : Buffer → Bool) (E : TypeTag) :
    ell.api.CallbackForwarder (List (Call TypeTag TimeTickType Callback LagCallback Buffer))
      Callback LagCallback Buffer where
  InitializeOnce := fun src inputSize snk outputSize aux log =>
    (Except.ok (), log ++ [Call.InitializeOnce E src inputSize snk outputSize aux])
  Uninitialize := fun log => (Except.ok (), log ++ [ Call.Uninitialize E])
  InvokeInput := fun buffer log => (Except.ok (newData buffer), log ++ [Call.InvokeInput E buffer])
  InvokeOutput := fun buffer log => (Except.ok (), log ++ [Call.InvokeOutput E buffer])

/-- A compiled map all of whose collaborators are recording. -/
def Recording.compiledMap (result : TypeTag → List TimeTickType → List Value)
    (newData : Buffer → Bool) (inputShape outputShape : TensorShape) (lag : LagCallback) :
    CompiledMap (List (Call TypeTag TimeTickType Callback LagCallback Buffer))
      TypeTag TimeTickType Value Callback LagCallback Buffer where
  _map := Recording.map result
  _inputShape := inputShape
  _outputShape := outputShape
  CallbackForwarder := Recording.forwarder newData
  unusedLagCallback := lag

end recording

end ELL_API

/-! ## The callback forwarder contract

`CallbackForwarder<ElementType>` is declared and defined outside the sources at hand; its
registration contract is taken from the specification. -/

namespace ell.api

/-- The binding a forwarder holds while initialized. -/
structure Binding (Callback LagCallback : Type) where
  sourceCallback : Callback
  inputSize : Nat
  sinkCallback : Callback
  outputSize : Nat
  auxiliaryCallback : LagCallback
deriving DecidableEq, Repr

section forwarder

variable {TypeTag Callback LagCallback Buffer S R : Type}

/-- Modelled from the spec: `CallbackForwarder::InitializeOnce` is not among the sources.
It establishes the single active binding of its element type; calling it again before
`Uninitialize()` is a usage error, reported as a precondition violation, and the binding
in force stays. -/
def SpecForwarder.InitializeOnce (sourceCallback : Callback) (inputSize : Nat)
    (sinkCallback : Callback) (outputSize : Nat) (auxiliaryCallback : LagCallback) :
    Action (Option (Binding Callback LagCallback)) Unit := fun binding =>
  match binding with
  | none =>
    (Except.ok (),
      some { sourceCallback := sourceCallback, inputSize := inputSize,
             sinkCallback := sinkCallback, outputSize := outputSize,
             auxiliaryCallback := auxiliaryCallback })
  | some active => (Except.error Exception.usage_error, some active)

/-- Modelled from the spec: `CallbackForwarder::Uninitialize` is not among the sources.  It
clears the binding and is safe to call when none is active. -/
def SpecForwarder.Uninitialize : Action (Option (Binding Callback LagCallback)) Unit :=
  fun _ => (Except.ok (), none)

/-- An action on the slot of one element type, run inside the family of slots, one per
element type. -/
def Action.onSlot [DecidableEq TypeTag] (E : TypeTag) (a : Action S R) :
    Action (TypeTag → S) R := fun slots =>
  match a (slots E) with
  | (r, slot) => (r, Function.update slots E slot)

/-- Modelled from the spec: the forwarder of element type `E` (one binding per element type).
Registration follows the specification; the data path (`InvokeInput`, `InvokeOutput`) is
left to the parameters. -/
def SpecForwarder.forwarder [DecidableEq TypeTag]
    (invokeInput : TypeTag → Buffer →
      Action (TypeTag → Option (Binding Callback LagCallback)) Bool)
    (invokeOutput : TypeTag → Buffer →
      Action (TypeTag → Option (Binding Callback LagCallback)) Unit)
    (E : TypeTag) :
    CallbackForwarder (TypeTag → Option (Binding Callback LagCallback))
      Callback LagCallback Buffer where
  InitializeOnce := fun src inputSize snk outputSize aux =>
    Action.onSlot E (SpecForwarder.InitializeOnce src inputSize snk outputSize aux)
  Uninitialize := Action.onSlot E SpecForwarder.Uninitialize
  InvokeInput := invokeInput E
  InvokeOutput := invokeOutput E

end forwarder

end ell.api

namespace ELL_API

open ell.api

section registration

variable {W TypeTag TimeTickType Value Callback LagCallback Buffer : Type}

/-- A compiled map whose forwarders follow the specified registration contract. -/
def CompiledMap.withSpecForwarder [DecidableEq TypeTag]
    (map : MapInterface (TypeTag → Option (Binding Callback LagCallback))
      TypeTag TimeTickType Value)
    (inputShape outputShape : TensorShape)
    (invokeInput : TypeTag → Buffer →
      Action (TypeTag → Option (Binding Callback LagCallback)) Bool)
    (invokeOutput : TypeTag → Buffer →
      Action (TypeTag → Option (Binding Callback LagCallback)) Unit)
    (lag : LagCallback) :
    CompiledMap (TypeTag → Option (Binding Callback LagCallback))
      TypeTag TimeTickType Value Callback LagCallback Buffer where
  _map := map
  _inputShape := inputShape
  _outputShape := outputShape
  CallbackForwarder := SpecForwarder.forwarder invokeInput invokeOutput
  unusedLagCallback := lag

/-- A call of the registration surface of a compiled map. -/
inductive RegistrationCall (TypeTag Callback : Type)
  | RegisterCallbacks (ElementType : TypeTag) (inputCallback outputCallback : Callback)
  | UnregisterCallbacks (ElementType : TypeTag)
deriving DecidableEq, Repr

/-- The member function a registration call stands for. -/
def CompiledMap.call
    (self : CompiledMap W TypeTag TimeTickType Value Callback LagCallback Buffer) :
    RegistrationCall TypeTag Callback → Action W Unit
  | RegistrationCall.RegisterCallbacks E inputCallback outputCallback =>
    self.RegisterCallbacks E inputCallback outputCallback
  | RegistrationCall.UnregisterCallbacks E => self.UnregisterCallbacks E

/-- The world after a caller made the calls in turn, going on after a call that threw. -/
def CompiledMap.callAll
    (self : CompiledMap W TypeTag TimeTickType Value Callback LagCallback Buffer) :
    List (RegistrationCall TypeTag Callback) → W → W
  | [], w => w
  | c :: rest, w => CompiledMap.callAll self rest (self.call c w).2

/-- The element types of the examples. -/
inductive Example.ElementType
  | float
  | double
deriving DecidableEq, Repr

/-- A wrapped map for the examples; callbacks, buffers and values are numbers. -/
def Example.map :
    MapInterface (Example.ElementType → Option (Binding Nat Nat)) Example.ElementType Nat Nat where
  Compute := fun _ _ slots => (Except.ok [], slots)

/-- A data path for the examples that never has new data. -/
def Example.invokeInput : Example.ElementType → Nat →
    Action (Example.ElementType → Option (Binding Nat Nat)) Bool :=
  fun _ _ slots => (Except.ok false, slots)

/-- A data path for the examples that drops what it is handed. -/
def Example.invokeOutput : Example.ElementType → Nat →
    Action (Example.ElementType → Option (Binding Nat Nat)) Unit :=
  fun _ _ slots => (Except.ok (), slots)

end registration

end ELL_API

/-! ## MapCompiler: the port-to-variable scope stack

`MapCompiler.h` declares the member `_portToVarMaps` and the member functions working on it;
their definitions are outside the sources at hand and are taken from the specification. -/

namespace ell.model

/-- A `const Port*`, the key of the port-to-variable maps. -/
abbrev Port : Type := Nat

/-- An `emitters::Variable*`. -/
abbrev Variable : Type := Nat

/-- One `std::unordered_map<const Port*, emitters::Variable*>`. -/
abbrev PortToVarMap : Type := Port → Option Variable

/-- The failures of the variable registry. -/
inductive RegistryError
  | scope_never_pushed
  | no_active_scope
deriving DecidableEq, Repr

/-- The part of a `MapCompiler` the variable registry works on: `_portToVarMaps`, a stack
whose head is its top, the innermost scope; and the state of the module emitter that creates
variables. -/
structure MapCompiler (Emitter : Type) where
  _portToVarMaps : List PortToVarMap
  emitter : Emitter

section registry

variable {Emitter : Type}

/-- Modelled from the spec: `MapCompiler::PushScope` is not among the sources.  It pushes a
scope without bindings; no outer binding is discarded. -/
def MapCompiler.PushScope (self : MapCompiler Emitter) : MapCompiler Emitter :=
  { self with _portToVarMaps := (fun _ => none) :: self._portToVarMaps }

/-- Modelled from the spec: `MapCompiler::PopScope` is not among the sources.  It discards
the innermost scope with that scope's own bindings; popping a scope that was never pushed is
a usage error. -/
def MapCompiler.PopScope (self : MapCompiler Emitter) :
    Except RegistryError (MapCompiler Emitter) :=
  match self._portToVarMaps with
  | [] => Except.error RegistryError.scope_never_pushed
  | _ :: outer => Except.ok { self with _portToVarMaps := outer }

/-- Looking a port up searches from the innermost to the outermost scope. -/
def MapCompiler.lookup : List PortToVarMap → Port → Option Variable
  | [], _ => none
  | scope :: outer, port =>
    match scope port with
    | some pVar => some pVar
    | none => MapCompiler.lookup outer port

/-- Modelled from the spec: `MapCompiler::GetVariableForPort` is not among the sources.  It
is the non-allocating probe: the variable bound to the port in the innermost scope that binds
it, or not-found. -/
def MapCompiler.GetVariableForPort (self : MapCompiler Emitter) (port : Port) :
    Option Variable :=
  MapCompiler.lookup self._portToVarMaps port

/-- Modelled from the spec: `MapCompiler::SetVariableForPort` is not among the sources.  It
associates the port with the variable in the current, innermost scope; without any scope
there is none to bind in. -/
def MapCompiler.SetVariableForPort (self : MapCompiler Emitter) (port : Port)
    (pVar : Variable) : Except RegistryError (MapCompiler Emitter) :=
  match self._portToVarMaps with
  | [] => Except.error RegistryError.no_active_scope
  | scope :: outer =>
    Except.ok { self with _portToVarMaps := Function.update scope port (some pVar) :: outer }

/-- Modelled from the spec: `MapCompiler::AllocatePortVariable` is not among the sources.  It
has the module emitter create a variable for the port (`newVariable`) and binds it in the
innermost scope. -/
def MapCompiler.AllocatePortVariable (newVariable : Emitter → Port → Variable × Emitter)
    (self : MapCompiler Emitter) (port : Port) :
    Except RegistryError (Variable × MapCompiler Emitter) :=
  match newVariable self.emitter port with
  | (pVar, emitter) =>
    match MapCompiler.SetVariableForPort { self with emitter := emitter } port pVar with
    | Except.ok next => Except.ok (pVar, next)
    | Except.error e => Except.error e

/-- Modelled from the spec: `MapCompiler::GetOrAllocatePortVariable` is not among the
sources.  It returns the existing binding if one is present in any active scope, and
otherwise allocates a variable, binds it in the innermost scope and returns it. -/
def MapCompiler.GetOrAllocatePortVariable (newVariable : Emitter → Port → Variable × Emitter)
    (self : MapCompiler Emitter) (port : Port) :
    Except RegistryError (Variable × MapCompiler Emitter) :=
  match MapCompiler.GetVariableForPort self port with
  | some pVar => Except.ok (pVar, self)
  | none => MapCompiler.AllocatePortVariable newVariable self port

/-- An operation of the variable registry. -/
inductive RegistryOp
  | PushScope
  | PopScope
  | SetVariableForPort (port : Port) (pVar : Variable)
  | GetOrAllocatePortVariable (port : Port)
deriving DecidableEq, Repr

/-- The registry after one operation. -/
def MapCompiler.step (newVariable : Emitter → Port → Variable × Emitter)
    (self : MapCompiler Emitter) : RegistryOp → Except RegistryError (MapCompiler Emitter)
  | RegistryOp.PushScope => Except.ok (MapCompiler.PushScope self)
  | RegistryOp.PopScope => MapCompiler.PopScope self
  | RegistryOp.SetVariableForPort port pVar => MapCompiler.SetVariableForPort self port pVar
  | RegistryOp.GetOrAllocatePortVariable port =>
    match MapCompiler.GetOrAllocatePortVariable newVariable self port with
    | Except.ok (_, next) => Except.ok next
    | Except.error e => Except.error e

/-- The registry after a sequence of operations; the first failure ends the run. -/
def MapCompiler.run (newVariable : Emitter → Port → Variable × Emitter) :
    List RegistryOp → MapCompiler Emitter → Except RegistryError (MapCompiler Emitter)
  | [], self => Except.ok self
  | op :: rest, self =>
    match MapCompiler.step newVariable self op with
    | Except.ok next => MapCompiler.run newVariable rest next
    | Except.error e => Except.error e

/-- The number of scopes open above the scope that was innermost when the operations
started, after the operations; `none` when they pop that scope. `depth` is the number open
above it at the start. -/
def RegistryOp.depthAfter : List RegistryOp → Nat → Option Nat
  | [], depth => some depth
  | RegistryOp.PushScope :: rest, depth => RegistryOp.depthAfter rest (depth + 1)
  | RegistryOp.PopScope :: _, 0 => none
  | RegistryOp.PopScope :: rest, depth + 1 => RegistryOp.depthAfter rest depth
  | RegistryOp.SetVariableForPort _ _ :: rest, depth => RegistryOp.depthAfter rest depth
  | RegistryOp.GetOrAllocatePortVariable _ :: rest, depth => RegistryOp.depthAfter rest depth

/-- Whether an operation neither pops a scope nor binds `port` explicitly. -/
def RegistryOp.keepsBinding (port : Port) : RegistryOp → Bool
  | RegistryOp.PushScope => true
  | RegistryOp.PopScope => false
  | RegistryOp.SetVariableForPort p _ => decide (p ≠ port)
  | RegistryOp.GetOrAllocatePortVariable _ => true

/-- A module emitter that numbers the variables it creates: its state is the number created
so far, which is also the next variable. -/
def countingEmitter : Nat → Port → Variable × Nat :=
  fun created _ => (created, created + 1)

/-- A compiler with no scope and a counting emitter that created nothing yet. -/
def MapCompiler.initial : MapCompiler Nat :=
  { _portToVarMaps := [], emitter := 0 }

end registry

end ell.model

/-! ## Theorems: SigmoidActivation -/

namespace ell.predictors.neural

theorem SigmoidActivation.neg_branch_eq (x : ℝ) :
    Real.exp x / (1 + Real.exp x) = 1 / (1 + Real.exp (-x)) := by
  have hpos : 0 < Real.exp x := Real.exp_pos x
  rw [Real.exp_neg]
  field_simp
  ring

/-- C8: over the real numbers `SigmoidActivation::Apply(x, index)` is the logistic function
`1 / (1 + exp(-x))` for every input and every index; both branches compute that same
function, and the result does not depend on the index. -/
theorem SigmoidActivation.Apply_eq_logistic {Index : Type} (x : ℝ) (index : Index) :
    SigmoidActivation.Apply Real.exp x index = 1 / (1 + Real.exp (-x))
      ∧ Real.exp x / (1 + Real.exp x) = 1 / (1 + Real.exp (-x))
      ∧ ∀ index2 : Index,
          SigmoidActivation.Apply Real.exp x index2 = SigmoidActivation.Apply Real.exp x index := by
  refine ⟨?_, SigmoidActivation.neg_branch_eq x, ?_⟩
  · unfold SigmoidActivation.Apply
    split
    · rfl
    · exact SigmoidActivation.neg_branch_eq x
  · intro index2
    rfl

/-- C9: over the real numbers, in a run of `SigmoidActivation::Apply` on any input the
argument passed to `exp` is non-positive, `exp_value` lies in `(0, 1]`, the divisor
`1 + exp_value` lies in `(1, 2]` and is non-zero, and the returned value (which is the value
of `Apply`) lies strictly between 0 and 1. -/
theorem SigmoidActivation.Apply_bounds {Index : Type} (x : ℝ) (index : Index) :
    (SigmoidActivation.ApplyTraced Real.exp x index).expArgument ≤ 0
      ∧ (SigmoidActivation.ApplyTraced Real.exp x index).exp_value
          = Real.exp (SigmoidActivation.ApplyTraced Real.exp x index).expArgument
      ∧ 0 < (SigmoidActivation.ApplyTraced Real.exp x index).exp_value
      ∧ (SigmoidActivation.ApplyTraced Real.exp x index).exp_value ≤ 1
      ∧ (SigmoidActivation.ApplyTraced Real.exp x index).divisor
          = 1 + (SigmoidActivation.ApplyTraced Real.exp x index).exp_value
      ∧ 1 < (SigmoidActivation.ApplyTraced Real.exp x index).divisor
      ∧ (SigmoidActivation.ApplyTraced Real.exp x index).divisor ≤ 2
      ∧ (SigmoidActivation.ApplyTraced Real.exp x index).divisor ≠ 0
      ∧ (SigmoidActivation.ApplyTraced Real.exp x index).output
          = SigmoidActivation.Apply Real.exp x index
      ∧ 0 < SigmoidActivation.Apply Real.exp x index
      ∧ SigmoidActivation.Apply Real.exp x index < 1 := by
  unfold SigmoidActivation.ApplyTraced SigmoidActivation.Apply
  by_cases h : x ≥ 0
  · have hpos : 0 < Real.exp (-x) := Real.exp_pos _
    have hle : Real.exp (-x) ≤ 1 := Real.exp_le_one_iff.mpr (by linarith)
    simp only [h, if_true]
    refine ⟨by linarith, trivial, hpos, hle, trivial, by linarith, by linarith, by positivity, trivial,
      by positivity, ?_⟩
    rw [div_lt_one (by positivity)]
    linarith
  · have hx : x < 0 := lt_of_not_ge h
    have hpos : 0 < Real.exp x := Real.exp_pos _
    have hle : Real.exp x ≤ 1 := Real.exp_le_one_iff.mpr (le_of_lt hx)
    simp only [h, if_false]
    refine ⟨le_of_lt hx, trivial, hpos, hle, trivial, by linarith, by linarith, by positivity, trivial,
      by positivity, ?_⟩
    rw [div_lt_one (by positivity)]
    linarith

end ell.predictors.neural

/-! ## Theorems: ModelInterface.tcc -/

namespace ELL_API

open ell.api

section lemmas

variable {W TypeTag Value : Type}

theorem Model.length_nodesOfTypeFrom (ofType : Node W TypeTag Value → Bool)
    (nodes : List (Node W TypeTag Value)) (first : Nat) :
    (Model.nodesOfTypeFrom ofType nodes first).length = nodes.countP ofType := by
  induction nodes generalizing first with
  | nil => rfl
  | cons n rest ih =>
    by_cases h : ofType n = true
    · simp [Model.nodesOfTypeFrom, h, ih]
    · simp [Model.nodesOfTypeFrom, h, ih]

theorem Model.nodesOfTypeFrom_sound (ofType : Node W TypeTag Value → Bool)
    (nodes : List (Node W TypeTag Value)) (first index node : Nat)
    (h : (Model.nodesOfTypeFrom ofType nodes first)[index]? = some node) :
    ∃ n, first ≤ node ∧ nodes[node - first]? = some n ∧ ofType n = true := by
  induction nodes generalizing first index with
  | nil => simp [Model.nodesOfTypeFrom] at h
  | cons n rest ih =>
    by_cases hn : ofType n = true
    · simp only [Model.nodesOfTypeFrom, hn, if_true] at h
      cases index with
      | zero =>
        simp at h
        subst h
        exact ⟨n, le_refl _, by simp, hn⟩
      | succ i =>
        simp at h
        obtain ⟨m, hle, hget, hm⟩ := ih (first + 1) i h
        refine ⟨m, by omega, ?_, hm⟩
        have : node - first = (node - (first + 1)) + 1 := by omega
        rw [this]
        simpa using hget
    · simp only [Model.nodesOfTypeFrom, hn] at h
      obtain ⟨m, hle, hget, hm⟩ := ih (first + 1) index h
      refine ⟨m, by omega, ?_, hm⟩
      have : node - first = (node - (first + 1)) + 1 := by omega
      rw [this]
      simpa using hget

theorem Model.GetNodesByType_sound (ofType : Node W TypeTag Value → Bool)
    (model : Model W TypeTag Value) (index node : Nat)
    (h : (Model.GetNodesByType ofType model)[index]? = some node) :
    ∃ n, model[node]? = some n ∧ ofType n = true := by
  obtain ⟨n, _, hget, hn⟩ := Model.nodesOfTypeFrom_sound ofType model 0 index node h
  exact ⟨n, by simpa using hget, hn⟩

theorem Model.length_callOn (g : Node W TypeTag Value → Node W TypeTag Value)
    (nodes : List (Node W TypeTag Value)) (node : Nat) :
    (Model.callOn g nodes node).length = nodes.length := by
  induction nodes generalizing node with
  | nil => rfl
  | cons n rest ih =>
    cases node with
    | zero => rfl
    | succ i => simp [Model.callOn, ih]

theorem Model.callOn_same (g : Node W TypeTag Value → Node W TypeTag Value)
    (nodes : List (Node W TypeTag Value)) (node : Nat) (n : Node W TypeTag Value)
    (h : nodes[node]? = some n) : (Model.callOn g nodes node)[node]? = some (g n) := by
  induction nodes generalizing node with
  | nil => simp at h
  | cons m rest ih =>
    cases node with
    | zero =>
      simp at h
      simp [Model.callOn, h]
    | succ i =>
      simp at h
      simpa [Model.callOn] using ih i h

theorem Model.callOn_other (g : Node W TypeTag Value → Node W TypeTag Value)
    (nodes : List (Node W TypeTag Value)) (node j : Nat) (h : j ≠ node) :
    (Model.callOn g nodes node)[j]? = nodes[j]? := by
  induction nodes generalizing node j with
  | nil => rfl
  | cons m rest ih =>
    cases node with
    | zero =>
      cases j with
      | zero => exact absurd rfl h
      | succ k => simp [Model.callOn]
    | succ i =>
      cases j with
      | zero => simp [Model.callOn]
      | succ k =>
        have hk : k ≠ i := fun e => h (by rw [e])
        simpa [Model.callOn] using ih i k hk

theorem Map.SetSourceCallback_none [DecidableEq TypeTag] (ElementType : TypeTag)
    (callback : CallbackBase W Value) (index : Nat) (model : Model W TypeTag Value)
    (h : (Model.GetNodesByType (Node.isSourceNode ElementType) model)[index]? = none) :
    Map.SetSourceCallback ElementType callback index model
      = (Except.error Exception.out_of_range, model) := by
  unfold Map.SetSourceCallback
  simp only [h]

theorem Map.SetSourceCallback_some [DecidableEq TypeTag] (ElementType : TypeTag)
    (callback : CallbackBase W Value) (index : Nat) (model : Model W TypeTag Value) (node : Nat)
    (h : (Model.GetNodesByType (Node.isSourceNode ElementType) model)[index]? = some node) :
    Map.SetSourceCallback ElementType callback index model
      = (Except.ok (),
          Model.callOn (Node.SetSourceFunction (Map.sourceLambda callback)) model node) := by
  unfold Map.SetSourceCallback
  simp only [h]

theorem Map.SetSinkCallback_none [DecidableEq TypeTag] (ElementType : TypeTag)
    (callback : CallbackBase W Value) (index : Nat) (model : Model W TypeTag Value)
    (h : (Model.GetNodesByType (Node.isSinkNode ElementType) model)[index]? = none) :
    Map.SetSinkCallback ElementType callback index model
      = (Except.error Exception.out_of_range, model) := by
  unfold Map.SetSinkCallback
  simp only [h]

theorem Map.SetSinkCallback_some [DecidableEq TypeTag] (ElementType : TypeTag)
    (callback : CallbackBase W Value) (index : Nat) (model : Model W TypeTag Value) (node : Nat)
    (h : (Model.GetNodesByType (Node.isSinkNode ElementType) model)[index]? = some node) :
    Map.SetSinkCallback ElementType callback index model
      = (Except.ok (),
          Model.callOn (Node.SetSinkFunction (Map.sinkLambda callback)) model node) := by
  unfold Map.SetSinkCallback
  simp only [h]

theorem Model.GetNodesByType_none_iff (ofType : Node W TypeTag Value → Bool)
    (model : Model W TypeTag Value) (index : Nat) :
    (Model.GetNodesByType ofType model)[index]? = none ↔ model.countP ofType ≤ index := by
  rw [← Model.length_nodesOfTypeFrom ofType model 0]
  exact List.getElem?_eq_none_iff

end lemmas

section claims

variable {W TypeTag TimeTickType Value Callback LagCallback Buffer : Type}

/-- C1: for every timestamp and element type, `CompiledMap::Step` and `Map::Step` make
exactly one call on the wrapped map, `Compute<ElementType>` on the one-element vector holding
the timestamp: a recording map logs exactly that entry, and against any map the step is that
single `Compute` with its result vector dropped. -/
theorem Step_invokes_Compute_once
    (result : TypeTag → List TimeTickType → List Value) (newData : Buffer → Bool)
    (inputShape outputShape : TensorShape) (lag : LagCallback)
    (cm : CompiledMap W TypeTag TimeTickType Value Callback LagCallback Buffer)
    (m : Map W TypeTag TimeTickType Value)
    (ElementType : TypeTag) (timestamp : TimeTickType)
    (log : List (Call TypeTag TimeTickType Callback LagCallback Buffer)) :
    CompiledMap.Step (Recording.compiledMap result newData inputShape outputShape lag)
        ElementType timestamp log
      = (Except.ok (), log ++ [Call.Compute ElementType [timestamp]])
    ∧ Map.Step (Map.mk (Recording.map result)) ElementType timestamp log
      = (Except.ok (), log ++ [Call.Compute ElementType [timestamp]])
    ∧ CompiledMap.Step cm ElementType timestamp
      = Action.bind (cm._map.Compute ElementType [timestamp]) (fun _ => Action.pure ())
    ∧ Map.Step m ElementType timestamp
      = Action.bind (m._map.Compute ElementType [timestamp]) (fun _ => Action.pure ()) :=
  ⟨rfl, rfl, rfl, rfl⟩

/-- C2: for every pair of callbacks, `CompiledMap::RegisterCallbacks` makes exactly one call,
`InitializeOnce` on the forwarder of the element type, with the input callback as source
callback, the size of the input shape as input size, the output callback as sink callback and
the size of the output shape as output size. -/
theorem RegisterCallbacks_calls_InitializeOnce_once
    (result : TypeTag → List TimeTickType → List Value) (newData : Buffer → Bool)
    (inputShape outputShape : TensorShape) (lag : LagCallback)
    (cm : CompiledMap W TypeTag TimeTickType Value Callback LagCallback Buffer)
    (ElementType : TypeTag) (inputCallback outputCallback : Callback)
    (log : List (Call TypeTag TimeTickType Callback LagCallback Buffer)) :
    CompiledMap.RegisterCallbacks
        (Recording.compiledMap result newData inputShape outputShape lag)
        ElementType inputCallback outputCallback log
      = (Except.ok (), log ++ [Call.InitializeOnce ElementType inputCallback inputShape.Size
          outputCallback outputShape.Size lag])
    ∧ CompiledMap.RegisterCallbacks cm ElementType inputCallback outputCallback
      = (cm.CallbackForwarder ElementType).InitializeOnce inputCallback cm._inputShape.Size
          outputCallback cm._outputShape.Size cm.unusedLagCallback :=
  ⟨rfl, rfl⟩

/-- C5: `CompiledMap::InvokeSourceCallback(buffer)` makes exactly one call, `InvokeInput` on
the forwarder with that buffer, and returns the flag that call reported, a `false` included
(as the value `false`, not as an exception).  When `Map::SetSourceCallback` succeeds, the
source function it installs in the node returns on every input exactly what the callback's
`Run` returns on that input. -/
theorem InvokeSourceCallback_returns_forwarder_flag [DecidableEq TypeTag]
    (result : TypeTag → List TimeTickType → List Value) (newData : Buffer → Bool)
    (inputShape outputShape : TensorShape) (lag : LagCallback)
    (cm : CompiledMap W TypeTag TimeTickType Value Callback LagCallback Buffer)
    (ElementType : TypeTag) (input : Buffer)
    (log : List (Call TypeTag TimeTickType Callback LagCallback Buffer))
    (callback : CallbackBase W Value) (index : Nat) (model : Model W TypeTag Value) :
    CompiledMap.InvokeSourceCallback
        (Recording.compiledMap result newData inputShape outputShape lag) ElementType input log
      = (Except.ok (newData input), log ++ [Call.InvokeInput ElementType input])
    ∧ (newData input = false →
        (CompiledMap.InvokeSourceCallback
          (Recording.compiledMap result newData inputShape outputShape lag)
          ElementType input log).1 = Except.ok false)
    ∧ CompiledMap.InvokeSourceCallback cm ElementType input
      = (cm.CallbackForwarder ElementType).InvokeInput input
    ∧ ((Map.SetSourceCallback ElementType callback index model).1 = Except.ok () →
        ∃ node, (Model.GetNodesByType (Node.isSourceNode ElementType) model)[index]? = some node
          ∧ (Map.SetSourceCallback ElementType callback index model).2[node]?
              = some (Node.SourceNode ElementType (Map.sourceLambda callback)))
    ∧ (∀ (v : List Value) (w : W), Map.sourceLambda callback v w = callback.Run v w) := by
  refine ⟨rfl, ?_, rfl, ?_, fun _ _ => rfl⟩
  · intro h
    show Except.ok (newData input) = Except.ok false
    rw [h]
  · intro hok
    cases hget : (Model.GetNodesByType (Node.isSourceNode ElementType) model)[index]? with
    | none =>
      rw [Map.SetSourceCallback_none ElementType callback index model hget] at hok
      cases hok
    | some node =>
      obtain ⟨n, hn, htype⟩ := Model.GetNodesByType_sound _ model index node hget
      refine ⟨node, rfl, ?_⟩
      rw [Map.SetSourceCallback_some ElementType callback index model node hget]
      show (Model.callOn _ model node)[node]? = _
      rw [Model.callOn_same _ model node n hn]
      cases n with
      | SourceNode E f =>
        simp [Node.isSourceNode] at htype
        subst htype
        rfl
      | SinkNode E f => simp [Node.isSourceNode] at htype
      | Other id => simp [Node.isSourceNode] at htype

/-- C10: `Map::SetSourceCallback(callback, index)` throws `std::out_of_range` exactly when
`index` is at least the number of source nodes of the element type in the model, and throws
nothing else; when it throws the model is unchanged; when it succeeds the node at position
`index` among those source nodes receives the new source function and every other node is
unchanged.  The same holds for `Map::SetSinkCallback` and the sink nodes. -/
theorem SetCallback_out_of_range_iff [DecidableEq TypeTag]
    (ElementType : TypeTag) (callback : CallbackBase W Value) (index : Nat)
    (model : Model W TypeTag Value) :
    (((Map.SetSourceCallback ElementType callback index model).1
          = Except.error Exception.out_of_range
        ↔ index ≥ model.countP (Node.isSourceNode ElementType))
      ∧ ((Map.SetSourceCallback ElementType callback index model).1 = Except.ok ()
        ↔ index < model.countP (Node.isSourceNode ElementType))
      ∧ ((Map.SetSourceCallback ElementType callback index model).1 ≠ Except.ok () →
          (Map.SetSourceCallback ElementType callback index model).2 = model)
      ∧ ((Map.SetSourceCallback ElementType callback index model).1 = Except.ok () →
          ∃ node n,
            (Model.GetNodesByType (Node.isSourceNode ElementType) model)[index]? = some node
            ∧ model[node]? = some n ∧ Node.isSourceNode ElementType n = true
            ∧ (Map.SetSourceCallback ElementType callback index model).2[node]?
                = some (Node.SetSourceFunction (Map.sourceLambda callback) n)
            ∧ (Map.SetSourceCallback ElementType callback index model).2.length = model.length
            ∧ ∀ j, j ≠ node →
                (Map.SetSourceCallback ElementType callback index model).2[j]? = model[j]?))
    ∧ (((Map.SetSinkCallback ElementType callback index model).1
          = Except.error Exception.out_of_range
        ↔ index ≥ model.countP (Node.isSinkNode ElementType))
      ∧ ((Map.SetSinkCallback ElementType callback index model).1 = Except.ok ()
        ↔ index < model.countP (Node.isSinkNode ElementType))
      ∧ ((Map.SetSinkCallback ElementType callback index model).1 ≠ Except.ok () →
          (Map.SetSinkCallback ElementType callback index model).2 = model)
      ∧ ((Map.SetSinkCallback ElementType callback index model).1 = Except.ok () →
          ∃ node n,
            (Model.GetNodesByType (Node.isSinkNode ElementType) model)[index]? = some node
            ∧ model[node]? = some n ∧ Node.isSinkNode ElementType n = true
            ∧ (Map.SetSinkCallback ElementType callback index model).2[node]?
                = some (Node.SetSinkFunction (Map.sinkLambda callback) n)
            ∧ (Map.SetSinkCallback ElementType callback index model).2.length = model.length
            ∧ ∀ j, j ≠ node →
                (Map.SetSinkCallback ElementType callback index model).2[j]? = model[j]?)) := by
  constructor
  · cases hget : (Model.GetNodesByType (Node.isSourceNode ElementType) model)[index]? with
    | none =>
      have hlen := (Model.GetNodesByType_none_iff _ model index).mp hget
      rw [Map.SetSourceCallback_none ElementType callback index model hget]
      refine ⟨⟨fun _ => hlen, fun _ => rfl⟩, ⟨fun h => ?_, fun h => ?_⟩, fun _ => rfl,
        fun h => ?_⟩
      · cases h
      · omega
      · cases h
    | some node =>
      have hlt : index < model.countP (Node.isSourceNode ElementType) := by
        by_contra hc
        rw [(Model.GetNodesByType_none_iff _ model index).mpr (Nat.le_of_not_lt hc)] at hget
        cases hget
      obtain ⟨n, hn, htype⟩ := Model.GetNodesByType_sound _ model index node hget
      rw [Map.SetSourceCallback_some ElementType callback index model node hget]
      refine ⟨⟨fun h => ?_, fun h => ?_⟩, ⟨fun _ => hlt, fun _ => rfl⟩, fun h => ?_, fun _ => ?_⟩
      · cases h
      · omega
      · exact absurd rfl h
      · exact ⟨node, n, rfl, hn, htype, Model.callOn_same _ model node n hn,
          Model.length_callOn _ model node, fun j hj => Model.callOn_other _ model node j hj⟩
  · cases hget : (Model.GetNodesByType (Node.isSinkNode ElementType) model)[index]? with
    | none =>
      have hlen := (Model.GetNodesByType_none_iff _ model index).mp hget
      rw [Map.SetSinkCallback_none ElementType callback index model hget]
      refine ⟨⟨fun _ => hlen, fun _ => rfl⟩, ⟨fun h => ?_, fun h => ?_⟩, fun _ => rfl,
        fun h => ?_⟩
      · cases h
      · omega
      · cases h
    | some node =>
      have hlt : index < model.countP (Node.isSinkNode ElementType) := by
        by_contra hc
        rw [(Model.GetNodesByType_none_iff _ model index).mpr (Nat.le_of_not_lt hc)] at hget
        cases hget
      obtain ⟨n, hn, htype⟩ := Model.GetNodesByType_sound _ model index node hget
      rw [Map.SetSinkCallback_some ElementType callback index model node hget]
      refine ⟨⟨fun h => ?_, fun h => ?_⟩, ⟨fun _ => hlt, fun _ => rfl⟩, fun h => ?_, fun _ => ?_⟩
      · cases h
      · omega
      · exact absurd rfl h
      · exact ⟨node, n, rfl, hn, htype, Model.callOn_same _ model node n hn,
          Model.length_callOn _ model node, fun j hj => Model.callOn_other _ model node j hj⟩

end claims


section registration_claims

variable {TypeTag TimeTickType Value Callback LagCallback Buffer : Type}

theorem CompiledMap.RegisterCallbacks_unbound [DecidableEq TypeTag]
    (map : MapInterface (TypeTag → Option (Binding Callback LagCallback))
      TypeTag TimeTickType Value)
    (inputShape outputShape : TensorShape)
    (invokeInput : TypeTag → Buffer →
      Action (TypeTag → Option (Binding Callback LagCallback)) Bool)
    (invokeOutput : TypeTag → Buffer →
      Action (TypeTag → Option (Binding Callback LagCallback)) Unit)
    (lag : LagCallback) (E : TypeTag) (inputCallback outputCallback : Callback)
    (slots : TypeTag → Option (Binding Callback LagCallback))
    (h : slots E = none) :
    CompiledMap.RegisterCallbacks
        (CompiledMap.withSpecForwarder map inputShape outputShape invokeInput invokeOutput lag)
        E inputCallback outputCallback slots
      = (Except.ok (), Function.update slots E
          (some { sourceCallback := inputCallback, inputSize := inputShape.Size,
                  sinkCallback := outputCallback, outputSize := outputShape.Size,
                  auxiliaryCallback := lag })) := by
  show Action.onSlot E (SpecForwarder.InitializeOnce inputCallback inputShape.Size
    outputCallback outputShape.Size lag) slots = _
  unfold Action.onSlot SpecForwarder.InitializeOnce
  simp only [h]

theorem CompiledMap.RegisterCallbacks_bound [DecidableEq TypeTag]
    (map : MapInterface (TypeTag → Option (Binding Callback LagCallback))
      TypeTag TimeTickType Value)
    (inputShape outputShape : TensorShape)
    (invokeInput : TypeTag → Buffer →
      Action (TypeTag → Option (Binding Callback LagCallback)) Bool)
    (invokeOutput : TypeTag → Buffer →
      Action (TypeTag → Option (Binding Callback LagCallback)) Unit)
    (lag : LagCallback) (E : TypeTag) (inputCallback outputCallback : Callback)
    (slots : TypeTag → Option (Binding Callback LagCallback))
    (active : Binding Callback LagCallback) (h : slots E = some active) :
    CompiledMap.RegisterCallbacks
        (CompiledMap.withSpecForwarder map inputShape outputShape invokeInput invokeOutput lag)
        E inputCallback outputCallback slots
      = (Except.error Exception.usage_error, slots) := by
  show Action.onSlot E (SpecForwarder.InitializeOnce inputCallback inputShape.Size
    outputCallback outputShape.Size lag) slots = _
  unfold Action.onSlot SpecForwarder.InitializeOnce
  simp only [h]
  rw [← h, Function.update_eq_self]

theorem CompiledMap.UnregisterCallbacks_withSpecForwarder [DecidableEq TypeTag]
    (map : MapInterface (TypeTag → Option (Binding Callback LagCallback))
      TypeTag TimeTickType Value)
    (inputShape outputShape : TensorShape)
    (invokeInput : TypeTag → Buffer →
      Action (TypeTag → Option (Binding Callback LagCallback)) Bool)
    (invokeOutput : TypeTag → Buffer →
      Action (TypeTag → Option (Binding Callback LagCallback)) Unit)
    (lag : LagCallback) (E : TypeTag)
    (slots : TypeTag → Option (Binding Callback LagCallback)) :
    CompiledMap.UnregisterCallbacks
        (CompiledMap.withSpecForwarder map inputShape outputShape invokeInput invokeOutput lag)
        E slots
      = (Except.ok (), Function.update slots E none) :=
  rfl

theorem CompiledMap.call_keeps_binding [DecidableEq TypeTag]
    (map : MapInterface (TypeTag → Option (Binding Callback LagCallback))
      TypeTag TimeTickType Value)
    (inputShape outputShape : TensorShape)
    (invokeInput : TypeTag → Buffer →
      Action (TypeTag → Option (Binding Callback LagCallback)) Bool)
    (invokeOutput : TypeTag → Buffer →
      Action (TypeTag → Option (Binding Callback LagCallback)) Unit)
    (lag : LagCallback) (E : TypeTag) (active : Binding Callback LagCallback)
    (c : RegistrationCall TypeTag Callback)
    (hc : c ≠ RegistrationCall.UnregisterCallbacks E)
    (slots : TypeTag → Option (Binding Callback LagCallback))
    (h : slots E = some active) :
    (CompiledMap.call
      (CompiledMap.withSpecForwarder map inputShape outputShape invokeInput invokeOutput lag)
      c slots).2 E = some active := by
  cases c with
  | RegisterCallbacks E2 i o =>
    show (CompiledMap.RegisterCallbacks _ E2 i o slots).2 E = _
    cases h2 : slots E2 with
    | none =>
      have hne : E ≠ E2 := fun e => by rw [e, h2] at h; cases h
      rw [CompiledMap.RegisterCallbacks_unbound _ _ _ _ _ _ _ _ _ _ h2]
      show Function.update slots E2 _ E = _
      rw [Function.update_noteq hne]
      exact h
    | some b =>
      rw [CompiledMap.RegisterCallbacks_bound _ _ _ _ _ _ _ _ _ _ b h2]
      exact h
  | UnregisterCallbacks E2 =>
    have hne : E ≠ E2 := fun e => hc (by rw [e])
    show (CompiledMap.UnregisterCallbacks _ E2 slots).2 E = _
    rw [CompiledMap.UnregisterCallbacks_withSpecForwarder]
    show Function.update slots E2 _ E = _
    rw [Function.update_noteq hne]
    exact h

theorem CompiledMap.callAll_keeps_binding [DecidableEq TypeTag]
    (map : MapInterface (TypeTag → Option (Binding Callback LagCallback))
      TypeTag TimeTickType Value)
    (inputShape outputShape : TensorShape)
    (invokeInput : TypeTag → Buffer →
      Action (TypeTag → Option (Binding Callback LagCallback)) Bool)
    (invokeOutput : TypeTag → Buffer →
      Action (TypeTag → Option (Binding Callback LagCallback)) Unit)
    (lag : LagCallback) (E : TypeTag) (active : Binding Callback LagCallback)
    (calls : List (RegistrationCall TypeTag Callback))
    (hcalls : ∀ c ∈ calls, c ≠ RegistrationCall.UnregisterCallbacks E)
    (slots : TypeTag → Option (Binding Callback LagCallback))
    (h : slots E = some active) :
    CompiledMap.callAll
      (CompiledMap.withSpecForwarder map inputShape outputShape invokeInput invokeOutput lag)
      calls slots E = some active := by
  induction calls generalizing slots with
  | nil => exact h
  | cons c rest ih =>
    simp only [CompiledMap.callAll]
    apply ih (fun c2 hc2 => hcalls c2 (List.mem_cons_of_mem _ hc2))
    exact CompiledMap.call_keeps_binding map inputShape outputShape invokeInput invokeOutput lag
      E active c (hcalls c (List.mem_cons_self _ _)) slots h

/-- C3: with a forwarder that follows the specified contract, once `RegisterCallbacks` has
succeeded for an element type, a further `RegisterCallbacks` for that element type, after any
calls that do not include `UnregisterCallbacks` for it, throws the usage error; the binding
of the first registration is still the one in force before and after that call.  On the
forwarder itself, `InitializeOnce` on an active binding throws the usage error. -/
theorem RegisterCallbacks_twice_is_usage_error [DecidableEq TypeTag]
    (map : MapInterface (TypeTag → Option (Binding Callback LagCallback))
      TypeTag TimeTickType Value)
    (inputShape outputShape : TensorShape)
    (invokeInput : TypeTag → Buffer →
      Action (TypeTag → Option (Binding Callback LagCallback)) Bool)
    (invokeOutput : TypeTag → Buffer →
      Action (TypeTag → Option (Binding Callback LagCallback)) Unit)
    (lag : LagCallback) (E : TypeTag) (in1 out1 in2 out2 : Callback)
    (between : List (RegistrationCall TypeTag Callback))
    (slots : TypeTag → Option (Binding Callback LagCallback))
    (hfirst : (CompiledMap.RegisterCallbacks
      (CompiledMap.withSpecForwarder map inputShape outputShape invokeInput invokeOutput lag)
      E in1 out1 slots).1 = Except.ok ())
    (hbetween : ∀ c ∈ between, c ≠ RegistrationCall.UnregisterCallbacks E) :
    (CompiledMap.RegisterCallbacks
      (CompiledMap.withSpecForwarder map inputShape outputShape invokeInput invokeOutput lag)
      E in2 out2
      (CompiledMap.callAll
        (CompiledMap.withSpecForwarder map inputShape outputShape invokeInput invokeOutput lag)
        between
        (CompiledMap.RegisterCallbacks
          (CompiledMap.withSpecForwarder map inputShape outputShape invokeInput invokeOutput
            lag)
          E in1 out1 slots).2)).1 = Except.error Exception.usage_error
    ∧ (CompiledMap.RegisterCallbacks
      (CompiledMap.withSpecForwarder map inputShape outputShape invokeInput invokeOutput lag)
      E in2 out2
      (CompiledMap.callAll
        (CompiledMap.withSpecForwarder map inputShape outputShape invokeInput invokeOutput lag)
        between
        (CompiledMap.RegisterCallbacks
          (CompiledMap.withSpecForwarder map inputShape outputShape invokeInput invokeOutput
            lag)
          E in1 out1 slots).2)).2 E
      = some { sourceCallback := in1, inputSize := inputShape.Size, sinkCallback := out1,
               outputSize := outputShape.Size, auxiliaryCallback := lag }
    ∧ ∀ (active : Binding Callback LagCallback) (n m : Nat) (aux : LagCallback),
        SpecForwarder.InitializeOnce in2 n out2 m aux (some active)
          = (Except.error Exception.usage_error, some active) := by
  have hafter : (CompiledMap.RegisterCallbacks
      (CompiledMap.withSpecForwarder map inputShape outputShape invokeInput invokeOutput lag)
      E in1 out1 slots).2 E
      = some { sourceCallback := in1, inputSize := inputShape.Size, sinkCallback := out1,
               outputSize := outputShape.Size, auxiliaryCallback := lag } := by
    cases h : slots E with
    | none =>
      rw [CompiledMap.RegisterCallbacks_unbound _ _ _ _ _ _ _ _ _ _ h]
      show Function.update slots E _ E = _
      rw [Function.update_same]
    | some b =>
      rw [CompiledMap.RegisterCallbacks_bound _ _ _ _ _ _ _ _ _ _ b h] at hfirst
      cases hfirst
  have hkept := CompiledMap.callAll_keeps_binding map inputShape outputShape invokeInput
    invokeOutput lag E _ between hbetween _ hafter
  refine ⟨?_, ?_, fun _ _ _ _ => rfl⟩
  · rw [CompiledMap.RegisterCallbacks_bound _ _ _ _ _ _ _ _ _ _ _ hkept]
  · rw [CompiledMap.RegisterCallbacks_bound _ _ _ _ _ _ _ _ _ _ _ hkept]
    exact hkept

/-- Witness of C3: callbacks 1 and 2 are registered for `float`; `double` is registered and
unregistered and `float` is registered once more in between; registering callbacks 3 and 4
for `float` then throws the usage error. -/
theorem RegisterCallbacks_twice_is_usage_error_witness :
    (CompiledMap.RegisterCallbacks
      (CompiledMap.withSpecForwarder Example.map (TensorShape.mk 4) (TensorShape.mk 4)
        Example.invokeInput Example.invokeOutput 0)
      Example.ElementType.float 1 2 (fun _ => none)).1 = Except.ok ()
    ∧ (∀ c ∈ [RegistrationCall.RegisterCallbacks Example.ElementType.double 5 6,
          RegistrationCall.UnregisterCallbacks Example.ElementType.double,
          RegistrationCall.RegisterCallbacks Example.ElementType.float 7 8],
        c ≠ RegistrationCall.UnregisterCallbacks Example.ElementType.float)
    ∧ (CompiledMap.RegisterCallbacks
      (CompiledMap.withSpecForwarder Example.map (TensorShape.mk 4) (TensorShape.mk 4)
        Example.invokeInput Example.invokeOutput 0)
      Example.ElementType.float 3 4
      (CompiledMap.callAll
        (CompiledMap.withSpecForwarder Example.map (TensorShape.mk 4) (TensorShape.mk 4)
          Example.invokeInput Example.invokeOutput 0)
        [RegistrationCall.RegisterCallbacks Example.ElementType.double 5 6,
          RegistrationCall.UnregisterCallbacks Example.ElementType.double,
          RegistrationCall.RegisterCallbacks Example.ElementType.float 7 8]
        (CompiledMap.RegisterCallbacks
          (CompiledMap.withSpecForwarder Example.map (TensorShape.mk 4) (TensorShape.mk 4)
            Example.invokeInput Example.invokeOutput 0)
          Example.ElementType.float 1 2 (fun _ => none)).2)).1
      = Except.error Exception.usage_error :=
  ⟨rfl, by decide,
    (RegisterCallbacks_twice_is_usage_error Example.map (TensorShape.mk 4) (TensorShape.mk 4)
      Example.invokeInput Example.invokeOutput 0 Example.ElementType.float 1 2 3 4
      [RegistrationCall.RegisterCallbacks Example.ElementType.double 5 6,
        RegistrationCall.UnregisterCallbacks Example.ElementType.double,
        RegistrationCall.RegisterCallbacks Example.ElementType.float 7 8]
      (fun _ => none) rfl (by decide)).1⟩

/-- C4: with a forwarder that follows the specified contract, `UnregisterCallbacks` never
throws; on an element type without active binding (never registered, or unregistered before)
it leaves the state as it is; and a second call in a row changes nothing the first did not.
On the forwarder itself, `Uninitialize` without active binding returns normally and leaves
no binding. -/
theorem UnregisterCallbacks_idempotent [DecidableEq TypeTag]
    (map : MapInterface (TypeTag → Option (Binding Callback LagCallback))
      TypeTag TimeTickType Value)
    (inputShape outputShape : TensorShape)
    (invokeInput : TypeTag → Buffer →
      Action (TypeTag → Option (Binding Callback LagCallback)) Bool)
    (invokeOutput : TypeTag → Buffer →
      Action (TypeTag → Option (Binding Callback LagCallback)) Unit)
    (lag : LagCallback) (E : TypeTag)
    (slots : TypeTag → Option (Binding Callback LagCallback)) :
    (slots E = none →
      CompiledMap.UnregisterCallbacks
        (CompiledMap.withSpecForwarder map inputShape outputShape invokeInput invokeOutput lag)
        E slots = (Except.ok (), slots))
    ∧ (CompiledMap.UnregisterCallbacks
        (CompiledMap.withSpecForwarder map inputShape outputShape invokeInput invokeOutput lag)
        E slots).1 = Except.ok ()
    ∧ (CompiledMap.UnregisterCallbacks
        (CompiledMap.withSpecForwarder map inputShape outputShape invokeInput invokeOutput lag)
        E slots).2 E = none
    ∧ CompiledMap.UnregisterCallbacks
        (CompiledMap.withSpecForwarder map inputShape outputShape invokeInput invokeOutput lag)
        E
        (CompiledMap.UnregisterCallbacks
          (CompiledMap.withSpecForwarder map inputShape outputShape invokeInput invokeOutput
            lag)
          E slots).2
      = CompiledMap.UnregisterCallbacks
          (CompiledMap.withSpecForwarder map inputShape outputShape invokeInput invokeOutput
            lag)
          E slots
    ∧ SpecForwarder.Uninitialize (none : Option (Binding Callback LagCallback))
      = (Except.ok (), none) := by
  refine ⟨fun h => ?_, rfl, ?_, ?_, rfl⟩
  · rw [CompiledMap.UnregisterCallbacks_withSpecForwarder, ← h, Function.update_eq_self]
  · rw [CompiledMap.UnregisterCallbacks_withSpecForwarder]
    show Function.update slots E none E = none
    rw [Function.update_same]
  · rw [CompiledMap.UnregisterCallbacks_withSpecForwarder,
      CompiledMap.UnregisterCallbacks_withSpecForwarder]
    show (Except.ok (), Function.update (Function.update slots E none) E none) = _
    rw [Function.update_idem]

end registration_claims

end ELL_API

/-! ## Theorems: the port-to-variable scope stack -/

namespace ell.model

section registry_lemmas

variable {Emitter : Type}

theorem MapCompiler.lookup_cons_update (scope : PortToVarMap) (outer : List PortToVarMap)
    (q port : Port) (v : Variable) :
    MapCompiler.lookup (Function.update scope q (some v) :: outer) port
      = if port = q then some v else MapCompiler.lookup (scope :: outer) port := by
  by_cases h : port = q
  · subst h
    simp [MapCompiler.lookup]
  · simp [MapCompiler.lookup, Function.update_noteq h, h]

theorem MapCompiler.lookup_push (stack : List PortToVarMap) (port : Port) :
    MapCompiler.lookup ((fun _ => none) :: stack) port = MapCompiler.lookup stack port := rfl

theorem MapCompiler.lookup_isSome_of_scope (inner : List PortToVarMap) (scope : PortToVarMap)
    (outer : List PortToVarMap) (port : Port) (h : (scope port).isSome = true) :
    (MapCompiler.lookup (inner ++ scope :: outer) port).isSome = true := by
  induction inner with
  | nil =>
    show (MapCompiler.lookup (scope :: outer) port).isSome = true
    unfold MapCompiler.lookup
    cases hs : scope port with
    | none => rw [hs] at h; cases h
    | some v => rfl
  | cons x rest ih =>
    show (MapCompiler.lookup (x :: (rest ++ scope :: outer)) port).isSome = true
    unfold MapCompiler.lookup
    cases hx : x port with
    | none => exact ih
    | some v => rfl

/-- On a registry with at least one scope, `GetOrAllocatePortVariable` succeeds; it leaves the
stack as it is or rebinds the requested port in the innermost scope. -/
theorem MapCompiler.GetOrAllocatePortVariable_stack
    (newVariable : Emitter → Port → Variable × Emitter) (c : MapCompiler Emitter)
    (scope : PortToVarMap) (outer : List PortToVarMap) (q : Port)
    (hstack : c._portToVarMaps = scope :: outer) :
    ∃ v next, MapCompiler.GetOrAllocatePortVariable newVariable c q = Except.ok (v, next)
      ∧ (next._portToVarMaps = scope :: outer
          ∨ (MapCompiler.lookup (scope :: outer) q = none
              ∧ next._portToVarMaps = Function.update scope q (some v) :: outer)) := by
  unfold MapCompiler.GetOrAllocatePortVariable MapCompiler.GetVariableForPort
  cases hl : MapCompiler.lookup c._portToVarMaps q with
  | some v => exact ⟨v, c, rfl, Or.inl hstack⟩
  | none =>
    refine ⟨(newVariable c.emitter q).1,
      { _portToVarMaps := Function.update scope q (some (newVariable c.emitter q).1) :: outer,
        emitter := (newVariable c.emitter q).2 }, ?_, Or.inr ⟨by rw [← hstack]; exact hl, rfl⟩⟩
    simp only [MapCompiler.AllocatePortVariable, MapCompiler.SetVariableForPort, hstack]

theorem MapCompiler.step_inside (newVariable : Emitter → Port → Variable × Emitter)
    (port : Port) (outer : List PortToVarMap) (op : RegistryOp) (rest : List RegistryOp)
    (c : MapCompiler Emitter) (depth final : Nat)
    (inner : List PortToVarMap) (scope : PortToVarMap)
    (hstack : c._portToVarMaps = inner ++ scope :: outer) (hlen : inner.length = depth)
    (hbound : (scope port).isSome = true)
    (hops : RegistryOp.depthAfter (op :: rest) depth = some final) :
    ∃ next depth2 inner2 scope2, MapCompiler.step newVariable c op = Except.ok next
      ∧ next._portToVarMaps = inner2 ++ scope2 :: outer ∧ inner2.length = depth2
      ∧ (scope2 port).isSome = true ∧ RegistryOp.depthAfter rest depth2 = some final := by
  have hupd : ∀ (q : Port) (v : Variable) (top : PortToVarMap) (below : List PortToVarMap),
      inner ++ scope :: outer = top :: below →
      ∃ inner2 scope2, Function.update top q (some v) :: below = inner2 ++ scope2 :: outer
        ∧ inner2.length = depth ∧ (scope2 port).isSome = true := by
    intro q v top below htop
    cases inner with
    | nil =>
      simp at htop
      obtain ⟨h1, h2⟩ := htop
      subst h1 h2
      refine ⟨[], Function.update scope q (some v), rfl, hlen, ?_⟩
      by_cases hq : port = q
      · subst hq
        simp
      · rw [Function.update_noteq hq]
        exact hbound
    | cons x xs =>
      simp at htop
      obtain ⟨h1, h2⟩ := htop
      subst h1 h2
      exact ⟨Function.update x q (some v) :: xs, scope, rfl, hlen, hbound⟩
  have hne : ∃ top below, inner ++ scope :: outer = top :: below := by
    cases inner with
    | nil => exact ⟨scope, outer, rfl⟩
    | cons x xs => exact ⟨x, xs ++ scope :: outer, rfl⟩
  obtain ⟨top, below, htop⟩ := hne
  cases op with
  | PushScope =>
    refine ⟨MapCompiler.PushScope c, depth + 1, (fun _ => none) :: inner, scope, rfl, ?_, ?_,
      hbound, hops⟩
    · show (fun _ => none) :: c._portToVarMaps = _
      rw [hstack]
      rfl
    · simp [hlen]
  | PopScope =>
    cases depth with
    | zero => simp [RegistryOp.depthAfter] at hops
    | succ d =>
      cases inner with
      | nil => simp at hlen
      | cons x xs =>
        refine ⟨{ c with _portToVarMaps := xs ++ scope :: outer }, d, xs, scope, ?_, rfl, ?_,
          hbound, hops⟩
        · simp only [MapCompiler.step, MapCompiler.PopScope, hstack, List.cons_append]
        · simpa using hlen
  | SetVariableForPort q v =>
    obtain ⟨inner2, scope2, h1, h2, h3⟩ := hupd q v top below htop
    refine ⟨{ c with _portToVarMaps := Function.update top q (some v) :: below }, depth,
      inner2, scope2, ?_, h1, h2, h3, hops⟩
    simp only [MapCompiler.step, MapCompiler.SetVariableForPort, hstack, htop]
  | GetOrAllocatePortVariable q =>
    obtain ⟨v, next, hgo, hnext⟩ := MapCompiler.GetOrAllocatePortVariable_stack newVariable c
      top below q (by rw [hstack, htop])
    refine ⟨next, depth, ?_⟩
    have hstep : MapCompiler.step newVariable c (RegistryOp.GetOrAllocatePortVariable q)
        = Except.ok next := by
      simp only [MapCompiler.step, hgo]
    cases hnext with
    | inl hsame => exact ⟨inner, scope, hstep, by rw [hsame, ← htop], hlen, hbound, hops⟩
    | inr hnew =>
      obtain ⟨inner2, scope2, h1, h2, h3⟩ := hupd q v top below htop
      exact ⟨inner2, scope2, hstep, by rw [hnew.2, h1], h2, h3, hops⟩

theorem MapCompiler.run_inside (newVariable : Emitter → Port → Variable × Emitter)
    (port : Port) (outer : List PortToVarMap) (ops : List RegistryOp)
    (c : MapCompiler Emitter) (depth final : Nat)
    (inner : List PortToVarMap) (scope : PortToVarMap)
    (hstack : c._portToVarMaps = inner ++ scope :: outer) (hlen : inner.length = depth)
    (hbound : (scope port).isSome = true)
    (hops : RegistryOp.depthAfter ops depth = some final) :
    ∃ last inner2 scope2, MapCompiler.run newVariable ops c = Except.ok last
      ∧ last._portToVarMaps = inner2 ++ scope2 :: outer ∧ inner2.length = final
      ∧ (scope2 port).isSome = true := by
  induction ops generalizing c depth inner scope with
  | nil =>
    simp only [RegistryOp.depthAfter, Option.some.injEq] at hops
    subst hops
    exact ⟨c, inner, scope, rfl, hstack, hlen, hbound⟩
  | cons op rest ih =>
    obtain ⟨next, depth2, inner2, scope2, hstep, hs2, hl2, hb2, hops2⟩ :=
      MapCompiler.step_inside newVariable port outer op rest c depth final inner scope hstack
        hlen hbound hops
    obtain ⟨last, inner3, scope3, hrun, hs3, hl3, hb3⟩ :=
      ih next depth2 inner2 scope2 hs2 hl2 hb2 hops2
    refine ⟨last, inner3, scope3, ?_, hs3, hl3, hb3⟩
    simp only [MapCompiler.run, hstep]
    exact hrun

theorem MapCompiler.lookup_after_GetOrAllocatePortVariable
    (newVariable : Emitter → Port → Variable × Emitter) (c first : MapCompiler Emitter)
    (port : Port) (pVar : Variable)
    (hfirst : MapCompiler.GetOrAllocatePortVariable newVariable c port
      = Except.ok (pVar, first)) :
    MapCompiler.lookup first._portToVarMaps port = some pVar := by
  unfold MapCompiler.GetOrAllocatePortVariable MapCompiler.GetVariableForPort at hfirst
  cases hl : MapCompiler.lookup c._portToVarMaps port with
  | some v =>
    rw [hl] at hfirst
    simp only [Except.ok.injEq, Prod.mk.injEq] at hfirst
    obtain ⟨h1, h2⟩ := hfirst
    subst h1 h2
    exact hl
  | none =>
    rw [hl] at hfirst
    cases hs : c._portToVarMaps with
    | nil =>
      simp [MapCompiler.AllocatePortVariable, MapCompiler.SetVariableForPort, hs] at hfirst
    | cons scope outer =>
      simp only [MapCompiler.AllocatePortVariable, MapCompiler.SetVariableForPort, hs,
        Except.ok.injEq, Prod.mk.injEq] at hfirst
      obtain ⟨h1, h2⟩ := hfirst
      subst h2
      show MapCompiler.lookup (Function.update scope port _ :: outer) port = some pVar
      rw [MapCompiler.lookup_cons_update, if_pos rfl, h1]

theorem MapCompiler.GetOrAllocatePortVariable_of_lookup
    (newVariable : Emitter → Port → Variable × Emitter) (c : MapCompiler Emitter)
    (port : Port) (pVar : Variable)
    (h : MapCompiler.lookup c._portToVarMaps port = some pVar) :
    MapCompiler.GetOrAllocatePortVariable newVariable c port = Except.ok (pVar, c) := by
  unfold MapCompiler.GetOrAllocatePortVariable MapCompiler.GetVariableForPort
  rw [h]

theorem MapCompiler.step_keeps_binding (newVariable : Emitter → Port → Variable × Emitter)
    (port : Port) (pVar : Variable) (op : RegistryOp) (c : MapCompiler Emitter)
    (hbound : MapCompiler.lookup c._portToVarMaps port = some pVar)
    (hop : RegistryOp.keepsBinding port op = true) :
    ∃ next, MapCompiler.step newVariable c op = Except.ok next
      ∧ MapCompiler.lookup next._portToVarMaps port = some pVar := by
  cases hs : c._portToVarMaps with
  | nil =>
    rw [hs] at hbound
    cases hbound
  | cons scope outer =>
    rw [hs] at hbound
    cases op with
    | PushScope =>
      refine ⟨MapCompiler.PushScope c, rfl, ?_⟩
      show MapCompiler.lookup ((fun _ => none) :: c._portToVarMaps) port = some pVar
      rw [MapCompiler.lookup_push, hs]
      exact hbound
    | PopScope => simp [RegistryOp.keepsBinding] at hop
    | SetVariableForPort q v =>
      have hq : port ≠ q := by
        simp [RegistryOp.keepsBinding] at hop
        exact fun e => hop e.symm
      refine ⟨{ c with _portToVarMaps := Function.update scope q (some v) :: outer }, ?_, ?_⟩
      · simp only [MapCompiler.step, MapCompiler.SetVariableForPort, hs]
      · show MapCompiler.lookup (Function.update scope q (some v) :: outer) port = some pVar
        rw [MapCompiler.lookup_cons_update, if_neg hq]
        exact hbound
    | GetOrAllocatePortVariable q =>
      obtain ⟨v, next, hgo, hnext⟩ := MapCompiler.GetOrAllocatePortVariable_stack newVariable c
        scope outer q hs
      refine ⟨next, ?_, ?_⟩
      · simp only [MapCompiler.step, hgo]
      · cases hnext with
        | inl hsame =>
          rw [hsame]
          exact hbound
        | inr hnew =>
          have hq : port ≠ q := by
            intro e
            rw [e, hnew.1] at hbound
            cases hbound
          rw [hnew.2, MapCompiler.lookup_cons_update, if_neg hq]
          exact hbound

theorem MapCompiler.run_keeps_binding (newVariable : Emitter → Port → Variable × Emitter)
    (port : Port) (pVar : Variable) (ops : List RegistryOp) (c : MapCompiler Emitter)
    (hbound : MapCompiler.lookup c._portToVarMaps port = some pVar)
    (hops : ∀ op ∈ ops, RegistryOp.keepsBinding port op = true) :
    ∃ last, MapCompiler.run newVariable ops c = Except.ok last
      ∧ MapCompiler.lookup last._portToVarMaps port = some pVar := by
  induction ops generalizing c with
  | nil => exact ⟨c, rfl, hbound⟩
  | cons op rest ih =>
    obtain ⟨next, hstep, hnext⟩ := MapCompiler.step_keeps_binding newVariable port pVar op c
      hbound (hops op (List.mem_cons_self _ _))
    obtain ⟨last, hrun, hlast⟩ := ih next hnext
      (fun o ho => hops o (List.mem_cons_of_mem _ ho))
    refine ⟨last, ?_, hlast⟩
    simp only [MapCompiler.run, hstep]
    exact hrun

end registry_lemmas

section registry_claims

variable {Emitter : Type}

/-- C6, as stated, fails: port 1 is bound to variable 20 while the second scope is the
innermost one, that scope is popped, and port 1 is still resolvable afterwards, through the
binding to variable 10 that the enclosing scope holds. -/
theorem scope_invariant_counterexample :
    (MapCompiler.run countingEmitter
        [RegistryOp.PushScope, RegistryOp.SetVariableForPort 1 10, RegistryOp.PushScope,
          RegistryOp.SetVariableForPort 1 20] MapCompiler.initial).map
        (fun c => MapCompiler.GetVariableForPort c 1) = Except.ok (some 20)
    ∧ (MapCompiler.run countingEmitter
        [RegistryOp.PushScope, RegistryOp.SetVariableForPort 1 10, RegistryOp.PushScope,
          RegistryOp.SetVariableForPort 1 20, RegistryOp.PopScope] MapCompiler.initial).map
        (fun c => MapCompiler.GetVariableForPort c 1) = Except.ok (some 10) :=
  ⟨rfl, rfl⟩

/-- C6, amended: a port bound by `SetVariableForPort` while scope k is the innermost scope is
resolvable by `GetVariableForPort` after any sequence of registry operations that does not
pop scope k, whatever scopes are nested inside it by then, and the scopes enclosing scope k
are left as they were; once scope k is popped the stack is exactly those enclosing scopes, so
the port then resolves as it did in them.  `PushScope` discards no binding, and `PopScope`
removes the innermost scope only. -/
theorem scope_binding_visible_until_popped
    (newVariable : Emitter → Port → Variable × Emitter) (c : MapCompiler Emitter)
    (scope : PortToVarMap) (outer : List PortToVarMap) (port : Port) (pVar : Variable)
    (ops : List RegistryOp) (depth : Nat)
    (hstack : c._portToVarMaps = scope :: outer)
    (hops : RegistryOp.depthAfter ops 0 = some depth) :
    ∃ bound last,
      MapCompiler.SetVariableForPort c port pVar = Except.ok bound
      ∧ MapCompiler.GetVariableForPort bound port = some pVar
      ∧ MapCompiler.run newVariable ops bound = Except.ok last
      ∧ (MapCompiler.GetVariableForPort last port).isSome = true
      ∧ last._portToVarMaps.length = depth + 1 + outer.length
      ∧ last._portToVarMaps.drop (depth + 1) = outer
      ∧ (depth = 0 → ∃ popped, MapCompiler.PopScope last = Except.ok popped
          ∧ popped._portToVarMaps = outer
          ∧ ∀ q, MapCompiler.GetVariableForPort popped q = MapCompiler.lookup outer q)
      ∧ (∀ q, MapCompiler.GetVariableForPort (MapCompiler.PushScope c) q
          = MapCompiler.GetVariableForPort c q)
      ∧ (MapCompiler.PushScope c)._portToVarMaps.tail = c._portToVarMaps
      ∧ (MapCompiler.PopScope c).map (fun popped => popped._portToVarMaps)
          = Except.ok outer := by
  have hb : (Function.update scope port (some pVar) port).isSome = true := by simp
  obtain ⟨last, inner2, scope2, hrun, hs2, hl2, hb2⟩ :=
    MapCompiler.run_inside newVariable port outer ops
      { c with _portToVarMaps := Function.update scope port (some pVar) :: outer } 0 depth []
      (Function.update scope port (some pVar)) rfl rfl hb hops
  refine ⟨{ c with _portToVarMaps := Function.update scope port (some pVar) :: outer }, last,
    ?_, ?_, hrun, ?_, ?_, ?_, ?_, fun q => rfl, rfl, ?_⟩
  · simp only [MapCompiler.SetVariableForPort, hstack]
  · show MapCompiler.lookup (Function.update scope port (some pVar) :: outer) port = some pVar
    rw [MapCompiler.lookup_cons_update, if_pos rfl]
  · show (MapCompiler.lookup last._portToVarMaps port).isSome = true
    rw [hs2]
    exact MapCompiler.lookup_isSome_of_scope inner2 scope2 outer port hb2
  · rw [hs2]
    simp [hl2]
    omega
  · have happ : inner2 ++ scope2 :: outer = (inner2 ++ [scope2]) ++ outer := by simp
    have hlen : depth + 1 = (inner2 ++ [scope2]).length := by simp [hl2]
    rw [hs2, happ, hlen, List.drop_left]
  · intro hd
    subst hd
    have hnil : inner2 = [] := List.length_eq_zero.mp hl2
    subst hnil
    refine ⟨{ last with _portToVarMaps := outer }, ?_, rfl, fun q => rfl⟩
    simp only [MapCompiler.PopScope]
    rw [hs2]
    rfl
  · simp only [MapCompiler.PopScope, hstack]
    rfl

/-- Witness of C6 (amended): inside the first scope, port 1 is bound to variable 10, a scope
is pushed, port 2 gets a variable and the scope is popped again. -/
theorem scope_binding_visible_until_popped_witness :
    (MapCompiler.PushScope MapCompiler.initial)._portToVarMaps = [fun _ => none]
    ∧ RegistryOp.depthAfter
        [RegistryOp.PushScope, RegistryOp.GetOrAllocatePortVariable 2, RegistryOp.PopScope] 0
        = some 0
    ∧ ∃ bound last,
        MapCompiler.SetVariableForPort (MapCompiler.PushScope MapCompiler.initial) 1 10
          = Except.ok bound
        ∧ MapCompiler.GetVariableForPort bound 1 = some 10
        ∧ MapCompiler.run countingEmitter
            [RegistryOp.PushScope, RegistryOp.GetOrAllocatePortVariable 2, RegistryOp.PopScope]
            bound = Except.ok last
        ∧ (MapCompiler.GetVariableForPort last 1).isSome = true := by
  refine ⟨rfl, rfl, ?_⟩
  obtain ⟨bound, last, h1, h2, h3, h4, _⟩ :=
    scope_binding_visible_until_popped countingEmitter
      (MapCompiler.PushScope MapCompiler.initial) (fun _ => none) [] 1 10
      [RegistryOp.PushScope, RegistryOp.GetOrAllocatePortVariable 2, RegistryOp.PopScope] 0
      rfl rfl
  exact ⟨bound, last, h1, h2, h3, h4⟩

/-- C7, as stated, fails: port 1 gets variable 0 from `GetOrAllocatePortVariable`; a scope
is pushed and port 1 is bound to variable 99 in it by `SetVariableForPort`; with no
`PopScope` in between, the second `GetOrAllocatePortVariable` on port 1 returns variable 99,
not variable 0.  The same happens when port 1 is bound to variable 99 without a scope being
pushed. -/
theorem GetOrAllocatePortVariable_twice_counterexample :
    (MapCompiler.GetOrAllocatePortVariable countingEmitter
        (MapCompiler.PushScope MapCompiler.initial) 1 >>= fun first =>
      MapCompiler.run countingEmitter
        [RegistryOp.PushScope, RegistryOp.SetVariableForPort 1 99] first.2 >>= fun between =>
      MapCompiler.GetOrAllocatePortVariable countingEmitter between 1 >>= fun second =>
      Except.ok (first.1, second.1)) = Except.ok (0, 99)
    ∧ (MapCompiler.GetOrAllocatePortVariable countingEmitter
        (MapCompiler.PushScope MapCompiler.initial) 1 >>= fun first =>
      MapCompiler.run countingEmitter
        [RegistryOp.SetVariableForPort 1 99] first.2 >>= fun between =>
      MapCompiler.GetOrAllocatePortVariable countingEmitter between 1 >>= fun second =>
      Except.ok (first.1, second.1)) = Except.ok (0, 99) :=
  ⟨rfl, rfl⟩

/-- C7, amended: when `GetOrAllocatePortVariable` has returned a variable for a port, and the
operations that follow contain no `PopScope` and no `SetVariableForPort` on that port, they
all succeed and a second `GetOrAllocatePortVariable` on the port returns the identical
variable and leaves the whole registry (the scope stack and the emitter) unchanged. -/
theorem GetOrAllocatePortVariable_twice_same
    (newVariable : Emitter → Port → Variable × Emitter) (c first : MapCompiler Emitter)
    (port : Port) (pVar : Variable) (between : List RegistryOp)
    (hfirst : MapCompiler.GetOrAllocatePortVariable newVariable c port
      = Except.ok (pVar, first))
    (hbetween : ∀ op ∈ between, RegistryOp.keepsBinding port op = true) :
    ∃ second, MapCompiler.run newVariable between first = Except.ok second
      ∧ MapCompiler.GetOrAllocatePortVariable newVariable second port
          = Except.ok (pVar, second) := by
  have h1 := MapCompiler.lookup_after_GetOrAllocatePortVariable newVariable c first port pVar
    hfirst
  obtain ⟨second, hrun, hsecond⟩ := MapCompiler.run_keeps_binding newVariable port pVar
    between first h1 hbetween
  exact ⟨second, hrun,
    MapCompiler.GetOrAllocatePortVariable_of_lookup newVariable second port pVar hsecond⟩

/-- Witness of C7 (amended): port 1 is allocated in the first scope; a scope is pushed, port 2
is bound and port 3 allocated; port 1 still has its variable. -/
theorem GetOrAllocatePortVariable_twice_same_witness :
    MapCompiler.GetOrAllocatePortVariable countingEmitter
        (MapCompiler.PushScope MapCompiler.initial) 1
      = Except.ok (0, { _portToVarMaps := [Function.update (fun _ => none) 1 (some 0)],
                        emitter := 1 })
    ∧ (∀ op ∈ [RegistryOp.PushScope, RegistryOp.SetVariableForPort 2 7,
          RegistryOp.GetOrAllocatePortVariable 3], RegistryOp.keepsBinding 1 op = true)
    ∧ ∃ second,
        MapCompiler.run countingEmitter
          [RegistryOp.PushScope, RegistryOp.SetVariableForPort 2 7,
            RegistryOp.GetOrAllocatePortVariable 3]
          { _portToVarMaps := [Function.update (fun _ => none) 1 (some 0)], emitter := 1 }
          = Except.ok second
        ∧ MapCompiler.GetOrAllocatePortVariable countingEmitter second 1
          = Except.ok (0, second) :=
  ⟨rfl, by decide,
    GetOrAllocatePortVariable_twice_same countingEmitter
      (MapCompiler.PushScope MapCompiler.initial) _ 1 0
      [RegistryOp.PushScope, RegistryOp.SetVariableForPort 2 7,
        RegistryOp.GetOrAllocatePortVariable 3] rfl (by decide)⟩

end registry_claims

end ell.model
